import Mathlib

/-!
Verification of the payment-and-balance reconciliation core of the
musabaha-homes backend.

The JavaScript source is shallowly embedded: monetary amounts (JS numbers
holding decimal values) become rationals, SQL tables become Lean lists of
row structures, and each transactional endpoint becomes a pure function
from a database state to a database state plus a result.  JS string
operations used by the code (split on comma, trim) are embedded as
structurally recursive Lean functions with the same behaviour.
-/

namespace Musabaha

/-! ## JS string primitives -/

/-- Embedding of JS `s.split(',')`: splits at every comma, keeping empty
tokens, and yields `[""]` on the empty string. -/
def jsSplitCommaAux : List Char → List Char → List String
  | [], acc => [String.mk acc.reverse]
  | c :: cs, acc =>
      if c = ',' then String.mk acc.reverse :: jsSplitCommaAux cs []
      else jsSplitCommaAux cs (c :: acc)

def jsSplitComma (s : String) : List String := jsSplitCommaAux s.data []

/-- Embedding of JS `s.trim()`: drops whitespace from both ends. -/
def jsTrim (s : String) : String :=
  String.mk (((s.data.dropWhile Char.isWhitespace).reverse.dropWhile
    Char.isWhitespace).reverse)

/-- The tokenisation `s.split(',').map(t => t.trim())` used for plot
number lists throughout the source. -/
def splitTrim (s : String) : List String := (jsSplitComma s).map jsTrim

/-- JS truthiness of an optional string: `null`/`undefined` and the empty
string are falsy, every other string is truthy. -/
def jsTruthy : Option String → Bool
  | none => false
  | some s => !(s == "")

/-! ## Ledger reconciliation

The balance/status recomputation block appears verbatim in
`Admin.createPayment`, `Admin.getUserById`, `Admin.getAllUsers` and the
PUT/PATCH user-update endpoints:

    totalPaid      = initial_deposit + payments.reduce((s,p) => s + p, 0)
    currentBalance = Math.max(0, total_money_to_pay - totalPaid)
    status         = currentBalance <= 0 ? 'Completed'
                   : (currentBalance > 0 && status === 'Completed') ? 'Active'
                   : status
-/

/-- Embedding of `payments.reduce((sum, p) => sum + p, 0)`. -/
def sumAmounts (l : List ℚ) : ℚ := l.foldl (fun sum p => sum + p) 0

/-- The reconciliation computation shared by the payment, read and update
paths of the source. -/
def reconcile (totalDue initialDeposit : ℚ) (payments : List ℚ)
    (status0 : String) : ℚ × String :=
  let totalPaid := initialDeposit + sumAmounts payments
  let currentBalance := max 0 (totalDue - totalPaid)
  let status :=
    if currentBalance ≤ 0 then "Completed"
    else if currentBalance > 0 ∧ status0 = "Completed" then "Active"
    else status0
  (currentBalance, status)

/-- Modelled from the spec's wording of the reconciliation rule (claim C2):
balance is `max 0 (totalDue - (initialDeposit + sum payments))`; the status
is `Completed` when the balance is `≤ 0`, `Active` when the balance is
positive and the prior status was `Completed`, and the prior status
otherwise. -/
def reconcileSpec (totalDue initialDeposit : ℚ) (payments : List ℚ)
    (prior : String) : ℚ × String :=
  let balance := max 0 (totalDue - (initialDeposit + payments.sum))
  (balance,
    if balance ≤ 0 then "Completed"
    else if prior = "Completed" then "Active"
    else prior)

/-! ## Account creation finances (`Admin.createUser`)

    const initialDepositValue = parseFloat(initial_deposit) || 0;
    const total_balance = total_money_to_pay - initialDepositValue;
    const status = initialDepositValue >= total_money_to_pay ? 'Completed' : 'Active';

Note: no clamping with `Math.max(0, ...)` here, unlike every other path.
-/

def createUser_total_balance (total_money_to_pay initialDepositValue : ℚ) : ℚ :=
  total_money_to_pay - initialDepositValue

def createUser_user_status (total_money_to_pay initialDepositValue : ℚ) : String :=
  if initialDepositValue ≥ total_money_to_pay then "Completed" else "Active"

/-! ## `Admin.calculateTotalMoneyToPay`

    if (!plotTaken || !pricePerPlot) return 0;
    const plots = plotTaken.split(',').map(plot => plot.trim());
    const prices = pricePerPlot.split(',').map(price => parseFloat(price.trim()) or 0);
    let total = 0;
    for (let i = 0; i < Math.min(plots.length, prices.length); i++) total += prices[i];
    return total;

`parseFloat` with the NaN-to-0 fallback is kept abstract as a parameter
`parse`; the claims about this function concern only the list pairing.
-/

def calculateTotalMoneyToPay (parse : String → ℚ)
    (plotTaken pricePerPlot : Option String) : ℚ :=
  if !(jsTruthy plotTaken) || !(jsTruthy pricePerPlot) then 0
  else
    let plots := splitTrim (plotTaken.getD (""))
    let numberOfPlots := plots.length
    let prices := (jsSplitComma (pricePerPlot.getD (""))).map
      (fun price => parse (jsTrim price))
    (List.range (min numberOfPlots prices.length)).foldl
      (fun total i => total + prices.getD i 0) 0

/-- Modelled from the spec's wording (claim C4): pair the split-and-trimmed
plot list with the parsed price list positionally up to the shorter length
and sum the prices; 0 when either input is missing or empty. -/
def totalDueSpec (parse : String → ℚ)
    (plotTaken pricePerPlot : Option String) : ℚ :=
  if jsTruthy plotTaken ∧ jsTruthy pricePerPlot then
    (((splitTrim (plotTaken.getD (""))).zip
        ((jsSplitComma (pricePerPlot.getD (""))).map
          (fun price => parse (jsTrim price)))).map (fun pr => pr.2)).sum
  else 0

/-! ## Helper lemmas about folds and sums -/

lemma foldl_add_eq_add_sum (l : List ℚ) : ∀ a : ℚ, l.foldl (fun s p => s + p) a = a + l.sum := by
  induction l with
  | nil => intro a; simp
  | cons x xs ih => intro a; simp [ih, add_assoc]

lemma sumAmounts_eq_sum (l : List ℚ) : sumAmounts l = l.sum := by
  unfold sumAmounts
  rw [foldl_add_eq_add_sum, zero_add]

lemma foldl_range_getD (prices : List ℚ) :
    ∀ n : Nat, n ≤ prices.length → ∀ a : ℚ,
      (List.range n).foldl (fun total i => total + prices.getD i 0) a
        = a + (prices.take n).sum := by
  intro n
  induction n with
  | zero => intro _ a; simp
  | succ m ih =>
      intro hlen a
      have hm : m < prices.length := Nat.lt_of_succ_le hlen
      rw [List.range_succ, List.foldl_append]
      rw [ih (Nat.le_of_lt hm)]
      rw [← List.take_concat_get prices m hm, List.sum_concat]
      have hg : prices.getD m 0 = prices[m] := List.getD_eq_getElem prices 0 hm
      simp only [List.foldl_cons, List.foldl_nil, hg]
      ring

lemma zip_map_snd_take (a : List String) :
    ∀ b : List ℚ, ((a.zip b).map (fun pr : String × ℚ => pr.2))
      = b.take (min a.length b.length) := by
  induction a with
  | nil => intro b; simp
  | cons x xs ih =>
      intro b
      cases b with
      | nil => simp
      | cons y ys => simp [ih, Nat.succ_min_succ]

/-! ## Claim C2 -/

/-- C2: the reconciliation computation shared by payment recording and the
update paths computes `balance = max 0 (totalDue - (initialDeposit + sum
payments))`, and the resulting status is `Completed` when the balance is
`≤ 0`, reverts to `Active` when the balance is positive and the prior
status was `Completed`, and otherwise equals the prior status (custom
statuses are preserved). -/
theorem C2_reconcile_formula (totalDue initialDeposit : ℚ) (payments : List ℚ)
    (prior : String) :
    reconcile totalDue initialDeposit payments prior
      = reconcileSpec totalDue initialDeposit payments prior := by
  unfold reconcile reconcileSpec
  rw [sumAmounts_eq_sum]
  by_cases h1 : max 0 (totalDue - (initialDeposit + payments.sum)) ≤ 0
  · simp [h1]
  · have h2 : max 0 (totalDue - (initialDeposit + payments.sum)) > 0 := lt_of_not_le h1
    by_cases h3 : prior = "Completed"
    · simp [h1, h2, h3]
    · simp [h1, h2, h3]

/-! ## Claim C4 -/

/-- C4: `calculateTotalMoneyToPay` equals the positional-pairing sum of the
split-and-trimmed plot and price lists up to the shorter length, with extra
entries ignored, and returns 0 when either input is missing or empty. -/
theorem C4_total_due (parse : String → ℚ) (plotTaken pricePerPlot : Option String) :
    calculateTotalMoneyToPay parse plotTaken pricePerPlot
      = totalDueSpec parse plotTaken pricePerPlot := by
  unfold calculateTotalMoneyToPay totalDueSpec
  cases hp : jsTruthy plotTaken <;> cases hq : jsTruthy pricePerPlot
  · simp [hp, hq]
  · simp [hp, hq]
  · simp [hp, hq]
  · simp only [hp, hq, Bool.not_true, Bool.or_self, Bool.false_eq_true, if_false,
      and_self, if_true]
    rw [foldl_range_getD _ _ (Nat.min_le_right _ _), zero_add,
      zip_map_snd_take]

/-! ## Plot store

A row of the `plots` table, restricted to the columns the reconciliation
core touches.  `reserved_at`/`NOW()` timestamps are modelled by an abstract
clock value passed in as `now`; the bookkeeping column `updated_at` is
omitted. -/

structure Plot where
  number : String
  status : String
  owner : Option String
  reservedAt : Option Nat
deriving DecidableEq, Repr

/-- Effect of `UPDATE plots SET status='Sold', owner=$1, reserved_at=NOW()`
on one row. -/
def soldPlot (owner : String) (now : Nat) (p : Plot) : Plot :=
  { p with status := "Sold", owner := some owner, reservedAt := some now }

/-- Effect of `UPDATE plots SET status='Available', owner=NULL,
reserved_at=NULL` on one row. -/
def availablePlot (p : Plot) : Plot :=
  { p with status := "Available", owner := none, reservedAt := none }

/-- Observable content of a plot row, ignoring the timestamp columns. -/
def Plot.content (p : Plot) : String × String × Option String :=
  (p.number, p.status, p.owner)

/-- The plot loop of `Admin.createUser`: for each comma-split trimmed plot
number, `UPDATE plots SET status='Sold', owner=$1, reserved_at=NOW()
WHERE number = $2 AND status = 'Available'`; the loop only runs when
`plot_taken` is truthy. -/
def createUserAssign (name : String) (now : Nat) (plot_taken : Option String)
    (plots : List Plot) : List Plot :=
  if jsTruthy plot_taken then
    (splitTrim (plot_taken.getD (""))).foldl
      (fun store plotNumber => store.map
        (fun p => if p.number = plotNumber ∧ p.status = "Available"
          then soldPlot name now p else p))
      plots
  else plots

/-- Release step of the PUT/PATCH update paths: `UPDATE plots SET
status='Available', owner=NULL, reserved_at=NULL WHERE owner = $1`. -/
def releasePlots (ownerName : String) (plots : List Plot) : List Plot :=
  plots.map (fun p => if p.owner = some ownerName then availablePlot p else p)

/-- Assign step of the PUT/PATCH update paths: for each token, `UPDATE plots
SET status='Sold', owner=$1, reserved_at=NOW() WHERE number = $2`. -/
def assignPlots (newOwner : String) (now : Nat) (tokens : List String)
    (plots : List Plot) : List Plot :=
  tokens.foldl
    (fun store plotNumber => store.map
      (fun p => if p.number = plotNumber then soldPlot newOwner now p else p))
    plots

/-- The plot-ownership block of `PUT/PATCH /api/admin/users/:id`, run when
`plot_taken` is present in the request: release every plot owned by the
existing user's name, then, when the new list is truthy and non-blank,
mark each listed plot Sold under the updated user's name. -/
def syncOwnership (prevName newName : String) (now : Nat)
    (newPlotList : Option String) (plots : List Plot) : List Plot :=
  let released := releasePlots prevName plots
  if jsTruthy newPlotList ∧ jsTrim (newPlotList.getD ("")) ≠ "" then
    assignPlots newName now (splitTrim (newPlotList.getD (""))) released
  else released

/-- The trimmed tokens the assign step of `syncOwnership` acts on:
empty unless the new plot list is truthy and non-blank. -/
def effTokens (newPlotList : Option String) : List String :=
  if jsTruthy newPlotList ∧ jsTrim (newPlotList.getD ("")) ≠ "" then
    splitTrim (newPlotList.getD (""))
  else []

/-- The tokens acted on when a plot list is merely truthy (the guard used
by `Admin.createUser` and the delete endpoint). -/
def truthyTokens (plot_taken : Option String) : List String :=
  if jsTruthy plot_taken then splitTrim (plot_taken.getD ("")) else []

/-! ## Folds of per-row conditional updates collapse to a single map -/

lemma foldl_condMap_eq_map (f : Plot → Plot) (g : String → Plot → Prop)
    [inst : ∀ n p, Decidable (g n p)]
    (H : ∀ m p, g m (f p) → f (f p) = f p) :
    ∀ (tokens : List String) (plots : List Plot),
      tokens.foldl (fun store n => store.map (fun p => if g n p then f p else p)) plots
        = plots.map (fun p => if ∃ n ∈ tokens, g n p then f p else p) := by
  intro tokens
  induction tokens with
  | nil =>
      intro plots
      simp
  | cons t ts ih =>
      intro plots
      rw [List.foldl_cons, ih, List.map_map]
      refine List.map_congr_left (fun p _ => ?_)
      by_cases hgt : g t p
      · simp only [Function.comp_apply, if_pos hgt]
        have hmem : ∃ n ∈ t :: ts, g n p := ⟨t, List.mem_cons_self t ts, hgt⟩
        rw [if_pos hmem]
        by_cases hex : ∃ n ∈ ts, g n (f p)
        · rw [if_pos hex]
          obtain ⟨n, _, hn⟩ := hex
          exact H n p hn
        · rw [if_neg hex]
      · simp only [Function.comp_apply, if_neg hgt]
        by_cases hex : ∃ n ∈ ts, g n p
        · have hmem : ∃ n ∈ t :: ts, g n p := by
            obtain ⟨n, hn, hg⟩ := hex
            exact ⟨n, List.mem_cons_of_mem t hn, hg⟩
          rw [if_pos hex, if_pos hmem]
        · have hmem : ¬ ∃ n ∈ t :: ts, g n p := by
            rintro ⟨n, hn, hg⟩
            rcases List.mem_cons.mp hn with rfl | hn
            · exact hgt hg
            · exact hex ⟨n, hn, hg⟩
          rw [if_neg hex, if_neg hmem]

lemma exists_mem_eq_iff {tokens : List String} {s : String} :
    (∃ n ∈ tokens, s = n) ↔ s ∈ tokens := by
  constructor
  · rintro ⟨n, hn, rfl⟩
    exact hn
  · intro h
    exact ⟨s, h, rfl⟩

lemma assignPlots_eq_map (newOwner : String) (now : Nat) (tokens : List String)
    (plots : List Plot) :
    assignPlots newOwner now tokens plots
      = plots.map (fun p => if p.number ∈ tokens then soldPlot newOwner now p else p) := by
  have h := foldl_condMap_eq_map (soldPlot newOwner now)
    (fun n p => p.number = n) (fun _ _ _ => rfl) tokens plots
  refine (h.trans ?_)
  refine List.map_congr_left (fun p _ => ?_)
  by_cases hm : p.number ∈ tokens
  · rw [if_pos (exists_mem_eq_iff.mpr hm), if_pos hm]
  · rw [if_neg (fun hx => hm (exists_mem_eq_iff.mp hx)), if_neg hm]

lemma createUserAssign_eq_map (name : String) (now : Nat)
    (plot_taken : Option String) (plots : List Plot) :
    createUserAssign name now plot_taken plots
      = plots.map (fun p =>
          if p.number ∈ truthyTokens plot_taken ∧ p.status = "Available"
          then soldPlot name now p else p) := by
  unfold createUserAssign truthyTokens
  by_cases ht : jsTruthy plot_taken
  · simp only [ht, if_true]
    have H : ∀ (m : String) (p : Plot),
        (soldPlot name now p).number = m ∧ (soldPlot name now p).status = "Available" →
        soldPlot name now (soldPlot name now p) = soldPlot name now p := by
      intro m p hp
      exact absurd hp.2 (by simp [soldPlot])
    have h := foldl_condMap_eq_map (soldPlot name now)
      (fun n p => p.number = n ∧ p.status = "Available") H
      (splitTrim (plot_taken.getD (""))) plots
    refine (h.trans ?_)
    refine List.map_congr_left (fun p _ => ?_)
    by_cases hm : p.number ∈ splitTrim (plot_taken.getD ("")) ∧ p.status = "Available"
    · have hx : ∃ n ∈ splitTrim (plot_taken.getD ("")), p.number = n ∧ p.status = "Available" :=
        ⟨p.number, hm.1, rfl, hm.2⟩
      rw [if_pos hx, if_pos hm]
    · have hx : ¬ ∃ n ∈ splitTrim (plot_taken.getD ("")), p.number = n ∧ p.status = "Available" := by
        rintro ⟨n, hn, rfl, hs⟩
        exact hm ⟨hn, hs⟩
      rw [if_neg hx, if_neg hm]
  · simp only [ht, if_false, Bool.false_eq_true]
    have h : plots.map (fun p =>
        if p.number ∈ ([] : List String) ∧ p.status = "Available"
        then soldPlot name now p else p) = plots.map (fun p => p) :=
      List.map_congr_left (fun p _ => by rw [if_neg (by simp)])
    rw [h, List.map_id']

lemma releaseByNumber_eq_map (tokens : List String) (plots : List Plot) :
    tokens.foldl
        (fun store n => store.map
          (fun p => if p.number = n then availablePlot p else p)) plots
      = plots.map (fun p => if p.number ∈ tokens then availablePlot p else p) := by
  have h := foldl_condMap_eq_map availablePlot
    (fun n p => p.number = n) (fun _ _ _ => rfl) tokens plots
  refine (h.trans ?_)
  refine List.map_congr_left (fun p _ => ?_)
  by_cases hm : p.number ∈ tokens
  · rw [if_pos (exists_mem_eq_iff.mpr hm), if_pos hm]
  · rw [if_neg (fun hx => hm (exists_mem_eq_iff.mp hx)), if_neg hm]

/-- Full characterisation of the ownership-sync block: listed plots end up
Sold under the new name; unlisted plots owned by the previous name end up
Available and unowned; everything else is untouched. -/
lemma syncOwnership_eq_map (prevName newName : String) (now : Nat)
    (newPlotList : Option String) (plots : List Plot) :
    syncOwnership prevName newName now newPlotList plots
      = plots.map (fun p =>
          if p.number ∈ effTokens newPlotList then soldPlot newName now p
          else if p.owner = some prevName then availablePlot p else p) := by
  unfold syncOwnership effTokens releasePlots
  by_cases hc : jsTruthy newPlotList ∧ jsTrim (newPlotList.getD ("")) ≠ ""
  · rw [if_pos hc, if_pos hc, assignPlots_eq_map, List.map_map]
    refine List.map_congr_left (fun p _ => ?_)
    simp only [Function.comp_apply]
    by_cases hrel : p.owner = some prevName
    · by_cases hm : p.number ∈ splitTrim (newPlotList.getD (""))
      · simp [hrel, hm, availablePlot, soldPlot]
      · simp [hrel, hm, availablePlot]
    · by_cases hm : p.number ∈ splitTrim (newPlotList.getD (""))
      · simp [hrel, hm]
      · simp [hrel, hm]
  · rw [if_neg hc, if_neg hc]
    refine List.map_congr_left (fun p _ => ?_)
    simp

/-! ## Database rows and state

`usersTable` and `payments` rows, restricted to the columns the
reconciliation core reads or writes, plus the plot store. -/

structure UserRow where
  id : Nat
  name : String
  plot_taken : Option String
  initial_deposit : ℚ
  total_money_to_pay : ℚ
  total_balance : ℚ
  status : String
deriving DecidableEq, Repr

structure PaymentRow where
  user_id : Nat
  amount : ℚ
deriving DecidableEq, Repr

structure DBState where
  users : List UserRow
  payments : List PaymentRow
  plots : List Plot
deriving DecidableEq, Repr

/-- Rows of `SELECT * FROM payments WHERE user_id = $1`, projected to amounts. -/
def paymentAmounts (payments : List PaymentRow) (uid : Nat) : List ℚ :=
  (payments.filter (fun p => p.user_id == uid)).map (fun p => p.amount)

/-- Result shape of `Admin.createPayment`: a success flag, the error
message on failure, and the refreshed balance/status on success. -/
structure PaymentResult where
  success : Bool
  message : String
  user_balance : ℚ
  user_status : String
deriving DecidableEq, Repr

/-- Embedding of `Admin.createPayment`: inside one transaction, insert the payment row,
load the owning user (throwing `User not found` when absent, which is
caught, rolls the transaction back and is returned as a failure result),
re-aggregate all payments of the user, recompute the clamped balance and
the status, and persist them to the user row. -/
def createPayment (db : DBState) (user_id : Nat) (amount : ℚ) :
    DBState × PaymentResult :=
  let newPayments := db.payments ++ [⟨user_id, amount⟩]
  match db.users.find? (fun u => u.id == user_id) with
  | none =>
      (db, { success := false, message := "User not found",
             user_balance := 0, user_status := "" })
  | some user =>
      let totalSubsequentPayments := sumAmounts (paymentAmounts newPayments user_id)
      let totalPaid := user.initial_deposit + totalSubsequentPayments
      let currentBalance := max 0 (user.total_money_to_pay - totalPaid)
      let status :=
        if currentBalance ≤ 0 then "Completed"
        else if currentBalance > 0 ∧ user.status = "Completed" then "Active"
        else user.status
      let newUsers := db.users.map (fun u =>
        if u.id == user_id
        then { u with total_balance := currentBalance, status := status } else u)
      ({ users := newUsers, payments := newPayments, plots := db.plots },
       { success := true, message := "",
         user_balance := currentBalance, user_status := status })

/-- The `currentBalance` constant of the refresh block of
`Admin.getUserById` / `Admin.getAllUsers`:
`Math.max(0, total_money_to_pay - (initial_deposit + sum of payments))`. -/
def currentBalanceOf (payments : List PaymentRow) (user : UserRow) : ℚ :=
  max 0 (user.total_money_to_pay -
    (user.initial_deposit + sumAmounts (paymentAmounts payments user.id)))

/-- One iteration of the balance-refresh logic of `Admin.getUserById` /
`Admin.getAllUsers`: recompute the clamped balance from the stored deposit,
total due and payment list, persist it (together with a status change when
one of the two transition rules fires) and return the enriched row. -/
def refreshUser (db : DBState) (user : UserRow) : DBState × UserRow :=
  if currentBalanceOf db.payments user ≤ 0 ∧ user.status ≠ "Completed" then
    let newUsers := db.users.map (fun w =>
      if w.id == user.id
      then { w with total_balance := 0, status := "Completed" } else w)
    ({ db with users := newUsers },
     { user with total_balance := currentBalanceOf db.payments user,
                 status := "Completed" })
  else if currentBalanceOf db.payments user > 0 ∧ user.status = "Completed" then
    let newUsers := db.users.map (fun w =>
      if w.id == user.id
      then { w with total_balance := currentBalanceOf db.payments user,
                    status := "Active" } else w)
    ({ db with users := newUsers },
     { user with total_balance := currentBalanceOf db.payments user,
                 status := "Active" })
  else
    let newUsers := db.users.map (fun w =>
      if w.id == user.id
      then { w with total_balance := currentBalanceOf db.payments user } else w)
    ({ db with users := newUsers },
     { user with total_balance := currentBalanceOf db.payments user })

/-- Embedding of `Admin.getUserById`: load the row, and unless it is absent refresh its
balance/status in the store and return the enriched row. -/
def getUserById (db : DBState) (userId : Nat) : DBState × Option UserRow :=
  match db.users.find? (fun u => u.id == userId) with
  | none => (db, none)
  | some user =>
      let r := refreshUser db user
      (r.1, some r.2)

/-- Embedding of `Admin.getAllUsers`: read all rows, then refresh each one in turn,
collecting the enriched rows. -/
def getAllUsers (db : DBState) : DBState × List UserRow :=
  db.users.foldl
    (fun acc user =>
      let r := refreshUser acc.1 user
      (r.1, acc.2 ++ [r.2]))
    (db, [])

/-- Embedding of `DELETE /api/admin/users/:id`: when the user exists, inside one
transaction reset every plot whose number is listed in the user's
`plot_taken` to Available (clearing owner and reserved-at), delete all
payment rows of the user, and delete the user row. -/
def deleteUser (db : DBState) (userId : Nat) : DBState × Bool :=
  match db.users.find? (fun u => u.id == userId) with
  | none => (db, false)
  | some existingUser =>
      let plots1 :=
        if jsTruthy existingUser.plot_taken then
          (splitTrim (existingUser.plot_taken.getD (""))).foldl
            (fun store n => store.map
              (fun p => if p.number = n then availablePlot p else p))
            db.plots
        else db.plots
      ({ users := db.users.filter (fun u => !(u.id == userId)),
         payments := db.payments.filter (fun p => !(p.user_id == userId)),
         plots := plots1 }, true)

/-- The balance/status columns a row ends up with after the shared
reconciliation block is persisted for it. -/
def reconciledRow (payments : List PaymentRow) (w : UserRow) : UserRow :=
  let r := reconcile w.total_money_to_pay w.initial_deposit
    (paymentAmounts payments w.id) w.status
  { w with total_balance := r.1, status := r.2 }

/-! ## Characterisation of `createPayment` -/

/-- The clamped balance `createPayment` computes for the found user. -/
def cpBalance (db : DBState) (user_id : Nat) (amount : ℚ) (user : UserRow) : ℚ :=
  max 0 (user.total_money_to_pay -
    (user.initial_deposit +
      sumAmounts (paymentAmounts (db.payments ++ [⟨user_id, amount⟩]) user_id)))

/-- The status `createPayment` persists for the found user. -/
def cpStatus (db : DBState) (user_id : Nat) (amount : ℚ) (user : UserRow) : String :=
  if cpBalance db user_id amount user ≤ 0 then "Completed"
  else if cpBalance db user_id amount user > 0 ∧ user.status = "Completed" then "Active"
  else user.status

lemma createPayment_not_found (db : DBState) (user_id : Nat) (amount : ℚ)
    (h : db.users.find? (fun u => u.id == user_id) = none) :
    createPayment db user_id amount
      = (db, { success := false, message := "User not found",
               user_balance := 0, user_status := "" }) := by
  unfold createPayment
  rw [h]

lemma createPayment_found (db : DBState) (user_id : Nat) (amount : ℚ) (user : UserRow)
    (h : db.users.find? (fun u => u.id == user_id) = some user) :
    createPayment db user_id amount
      = ({ users := db.users.map (fun u =>
            if u.id == user_id
            then { u with total_balance := cpBalance db user_id amount user,
                          status := cpStatus db user_id amount user }
            else u),
           payments := db.payments ++ [⟨user_id, amount⟩],
           plots := db.plots },
         { success := true, message := "",
           user_balance := cpBalance db user_id amount user,
           user_status := cpStatus db user_id amount user }) := by
  unfold createPayment cpStatus cpBalance
  rw [h]

/-! ## Claim C1 -/

/-- C1 counterexample: with a non-negative total due of 100 and a
non-negative initial deposit of 150, account creation stores a strictly
negative balance, so the claimed invariant fails for the creation path. -/
theorem C1_counterexample :
    (0 : ℚ) ≤ 100 ∧ (0 : ℚ) ≤ 150 ∧ createUser_total_balance 100 150 < 0 := by
  refine ⟨by norm_num, by norm_num, ?_⟩
  unfold createUser_total_balance
  norm_num

/-- C1 (amended): the reconciliation computation always returns a
non-negative balance and a zero balance forces status `Completed`; the
payment-recording path persists exactly this clamped balance, so a user row
it updates satisfies the invariant.  Account creation, however, stores the
unclamped `totalDue - initialDeposit`, which is negative whenever the
deposit exceeds the total due; a stored zero balance at creation still
implies status `Completed`. -/
theorem C1_amended :
    (∀ (totalDue initialDeposit : ℚ) (payments : List ℚ) (st : String),
        0 ≤ (reconcile totalDue initialDeposit payments st).1
        ∧ ((reconcile totalDue initialDeposit payments st).1 = 0 →
            (reconcile totalDue initialDeposit payments st).2 = "Completed"))
    ∧ (∀ (db : DBState) (uid : Nat) (amt : ℚ) (u : UserRow),
        u ∈ ((createPayment db uid amt).1).users → u.id = uid →
        ((createPayment db uid amt).2).success = true →
        0 ≤ u.total_balance ∧ (u.total_balance = 0 → u.status = "Completed"))
    ∧ (∀ (totalDue initialDeposit : ℚ),
        createUser_total_balance totalDue initialDeposit = totalDue - initialDeposit
        ∧ (createUser_total_balance totalDue initialDeposit = 0 →
            createUser_user_status totalDue initialDeposit = "Completed")) := by
  refine ⟨?_, ?_, ?_⟩
  · intro totalDue initialDeposit payments st
    constructor
    · exact le_max_left 0 _
    · intro h
      show (if max 0 (totalDue - (initialDeposit + sumAmounts payments)) ≤ 0
            then "Completed"
            else if max 0 (totalDue - (initialDeposit + sumAmounts payments)) > 0
                    ∧ st = "Completed" then "Active" else st) = "Completed"
      have h0 : max 0 (totalDue - (initialDeposit + sumAmounts payments)) ≤ 0 :=
        le_of_eq h
      rw [if_pos h0]
  · intro db uid amt u hmem hid hsucc
    cases hfind : db.users.find? (fun w => w.id == uid) with
    | none =>
        rw [createPayment_not_found db uid amt hfind] at hsucc
        exact absurd hsucc (by simp)
    | some user =>
        rw [createPayment_found db uid amt user hfind] at hmem
        obtain ⟨w, _, hw⟩ := List.mem_map.mp hmem
        by_cases hwid : (w.id == uid) = true
        · rw [if_pos hwid] at hw
          subst hw
          refine ⟨le_max_left 0 _, fun hz => ?_⟩
          have h0 : cpBalance db uid amt user ≤ 0 := le_of_eq hz
          unfold cpStatus
          rw [if_pos h0]
        · rw [if_neg hwid] at hw
          subst hw
          exact absurd (by simpa using hid) hwid
  · intro totalDue initialDeposit
    refine ⟨rfl, fun h => ?_⟩
    unfold createUser_total_balance at h
    unfold createUser_user_status
    rw [if_pos (by linarith [sub_eq_zero.mp h])]

/-- Closed witness for `C1_amended`, exercising all three components with
their hypotheses discharged at concrete inputs. -/
theorem C1_amended_witness :
    (0 : ℚ) ≤ (reconcile 10 4 [6] "Active").1
    ∧ (reconcile 10 4 [6] "Active").2 = "Completed"
    ∧ (0 : ℚ) ≤ (⟨1, "a", none, 2, 5, 0, "Completed"⟩ : UserRow).total_balance
    ∧ ((⟨1, "a", none, 2, 5, 0, "Completed"⟩ : UserRow).total_balance = 0 →
        (⟨1, "a", none, 2, 5, 0, "Completed"⟩ : UserRow).status = "Completed")
    ∧ createUser_user_status 5 5 = "Completed" := by
  have hfind : (⟨[⟨1, "a", none, 2, 5, 3, "Active"⟩], [], []⟩ : DBState).users.find?
      (fun w => w.id == 1) = some ⟨1, "a", none, 2, 5, 3, "Active"⟩ := rfl
  have hb : cpBalance ⟨[⟨1, "a", none, 2, 5, 3, "Active"⟩], [], []⟩ 1 3
      ⟨1, "a", none, 2, 5, 3, "Active"⟩ = 0 := by
    unfold cpBalance paymentAmounts sumAmounts
    norm_num
  have hst : cpStatus ⟨[⟨1, "a", none, 2, 5, 3, "Active"⟩], [], []⟩ 1 3
      ⟨1, "a", none, 2, 5, 3, "Active"⟩ = "Completed" := by
    unfold cpStatus
    rw [if_pos (le_of_eq hb)]
  have hev := createPayment_found ⟨[⟨1, "a", none, 2, 5, 3, "Active"⟩], [], []⟩ 1 3
    ⟨1, "a", none, 2, 5, 3, "Active"⟩ hfind
  have husers : ((createPayment ⟨[⟨1, "a", none, 2, 5, 3, "Active"⟩], [], []⟩ 1 3).1).users
      = [⟨1, "a", none, 2, 5, 0, "Completed"⟩] := by
    rw [hev]
    simp [hb, hst]
  have hmem : (⟨1, "a", none, 2, 5, 0, "Completed"⟩ : UserRow)
      ∈ ((createPayment ⟨[⟨1, "a", none, 2, 5, 3, "Active"⟩], [], []⟩ 1 3).1).users := by
    rw [husers]
    exact List.mem_singleton.mpr rfl
  have hsucc : ((createPayment ⟨[⟨1, "a", none, 2, 5, 3, "Active"⟩], [], []⟩ 1 3).2).success
      = true := by
    rw [hev]
  have hmain := C1_amended
  refine ⟨(hmain.1 10 4 [6] "Active").1,
          (hmain.1 10 4 [6] "Active").2 ?_,
          (hmain.2.1 ⟨[⟨1, "a", none, 2, 5, 3, "Active"⟩], [], []⟩ 1 3
            ⟨1, "a", none, 2, 5, 0, "Completed"⟩ hmem rfl hsucc).1,
          (hmain.2.1 ⟨[⟨1, "a", none, 2, 5, 3, "Active"⟩], [], []⟩ 1 3
            ⟨1, "a", none, 2, 5, 0, "Completed"⟩ hmem rfl hsucc).2,
          (hmain.2.2 5 5).2 ?_⟩
  · show max 0 ((10 : ℚ) - (4 + sumAmounts [6])) = 0
    unfold sumAmounts
    norm_num
  · unfold createUser_total_balance
    norm_num

/-! ## Claim C3 -/

/-- C3 counterexample: at creation with total due 100 and deposit 150 the
stored balance is the unclamped -50, not the claimed `max 0 (100 - 150) = 0`. -/
theorem C3_counterexample :
    createUser_total_balance 100 150 ≠ max 0 (100 - 150) := by
  unfold createUser_total_balance
  norm_num

/-- C3 (amended): account creation stores the unclamped balance
`totalDue - initialDeposit` (negative on overpayment) and status
`Completed` exactly when the deposit covers the total due; whenever the
deposit does not exceed the total due this agrees with the reconciliation
rule applied to an empty payment list. -/
theorem C3_amended (total_money_to_pay initialDepositValue : ℚ) :
    createUser_total_balance total_money_to_pay initialDepositValue
        = total_money_to_pay - initialDepositValue
    ∧ (createUser_user_status total_money_to_pay initialDepositValue = "Completed"
        ↔ total_money_to_pay ≤ initialDepositValue)
    ∧ (initialDepositValue ≤ total_money_to_pay →
        (createUser_total_balance total_money_to_pay initialDepositValue,
          createUser_user_status total_money_to_pay initialDepositValue)
          = reconcile total_money_to_pay initialDepositValue [] "Active") := by
  refine ⟨rfl, ?_, ?_⟩
  · unfold createUser_user_status
    by_cases h : initialDepositValue ≥ total_money_to_pay
    · rw [if_pos h]
      simp [h]
    · rw [if_neg h]
      constructor
      · intro hc
        exact absurd hc (by simp)
      · intro hle
        exact absurd (ge_iff_le.mpr hle) h
  · intro h
    unfold createUser_total_balance createUser_user_status reconcile sumAmounts
    simp only [List.foldl_nil]
    simp only [add_zero]
    have hmax : max 0 (total_money_to_pay - initialDepositValue)
        = total_money_to_pay - initialDepositValue :=
      max_eq_right (by linarith)
    simp only [hmax]
    by_cases hc : initialDepositValue ≥ total_money_to_pay
    · have hle : total_money_to_pay - initialDepositValue ≤ 0 := by linarith
      rw [if_pos hc, if_pos hle]
    · have hgt : ¬ (total_money_to_pay - initialDepositValue ≤ 0) := by
        push_neg
        push_neg at hc
        linarith
      rw [if_neg hc, if_neg hgt, if_neg (by simp)]

/-- Closed witness for `C3_amended` with the implication discharged. -/
theorem C3_amended_witness :
    (createUser_total_balance 100 30, createUser_user_status 100 30)
      = reconcile 100 30 [] "Active" :=
  (C3_amended 100 30).2.2 (by norm_num)

/-! ## Claim C5 -/

/-- C5 counterexample: at account creation, a listed plot that exists in
the store but is not `Available` (here: already Sold to bob) is left
completely untouched, so it is not set to Sold under the new account's
name as the claim states. -/
theorem C5_counterexample :
    createUserAssign ("alice") 10 (some ("P1")) [⟨"P1", "Sold", some ("bob"), some 5⟩]
        = [⟨"P1", "Sold", some ("bob"), some 5⟩]
    ∧ (⟨"P1", "Sold", some ("bob"), some 5⟩ : Plot).owner ≠ some ("alice") := by
  constructor
  · decide
  · decide

/-- C5 (amended): on the update paths, every plot whose number is among
the comma-split trimmed tokens is set to Sold with the account's name as
owner and reserved-at now, and every other plot (including listed numbers
with no matching plot, which are silently skipped without error) is left
unchanged; on account creation the same holds except that only plots whose
current status is `Available` are updated, all others being silently
skipped as well. -/
theorem C5_amended (name : String) (now : Nat) (tokens : List String)
    (plot_taken : Option String) (plots : List Plot) :
    assignPlots name now tokens plots
        = plots.map (fun p => if p.number ∈ tokens then soldPlot name now p else p)
    ∧ createUserAssign name now plot_taken plots
        = plots.map (fun p =>
            if p.number ∈ truthyTokens plot_taken ∧ p.status = "Available"
            then soldPlot name now p else p) :=
  ⟨assignPlots_eq_map name now tokens plots,
   createUserAssign_eq_map name now plot_taken plots⟩

/-! ## Claim C6 -/

/-- C6 counterexample: a plot-store state in which the account owns a plot
that is not in its (unchanged) plot list: the release-then-reassign round
trip frees that plot, so the store content is not preserved for every
store state. -/
theorem C6_counterexample :
    (syncOwnership ("alice") ("alice") 7 (some ("P1"))
        [⟨"P1", "Sold", some ("alice"), some 3⟩,
         ⟨"P2", "Sold", some ("alice"), some 4⟩]).map Plot.content
      ≠ [⟨"P1", "Sold", some ("alice"), some 3⟩,
         ⟨"P2", "Sold", some ("alice"), some 4⟩].map Plot.content := by
  decide

/-- C6 (amended): when the store is consistent with the account — every
plot owned by the account's name is listed among the (unchanged) trimmed
tokens, and every listed plot is Sold and owned by that name — running the
ownership synchroniser with the same plot list preserves the store content
(numbers, statuses, owners; reserved-at timestamps are refreshed). -/
theorem C6_amended (name : String) (now : Nat) (newPlotList : Option String)
    (plots : List Plot)
    (h : ∀ p ∈ plots,
        (p.owner = some name → p.number ∈ effTokens newPlotList)
        ∧ (p.number ∈ effTokens newPlotList →
            p.status = "Sold" ∧ p.owner = some name)) :
    (syncOwnership name name now newPlotList plots).map Plot.content
      = plots.map Plot.content := by
  rw [syncOwnership_eq_map, List.map_map]
  refine List.map_congr_left (fun p hp => ?_)
  simp only [Function.comp_apply]
  by_cases hm : p.number ∈ effTokens newPlotList
  · rw [if_pos hm]
    obtain ⟨hs, ho⟩ := (h p hp).2 hm
    unfold Plot.content soldPlot
    simp [hs, ho]
  · rw [if_neg hm]
    by_cases hrel : p.owner = some name
    · exact absurd ((h p hp).1 hrel) hm
    · rw [if_neg hrel]

/-- Closed witness for `C6_amended` on a consistent store. -/
theorem C6_amended_witness :
    (syncOwnership ("alice") ("alice") 7 (some ("P1"))
        [⟨"P1", "Sold", some ("alice"), some 3⟩,
         ⟨"P2", "Available", none, none⟩]).map Plot.content
      = [⟨"P1", "Sold", some ("alice"), some 3⟩,
         ⟨"P2", "Available", none, none⟩].map Plot.content :=
  C6_amended ("alice") 7 (some ("P1"))
    [⟨"P1", "Sold", some ("alice"), some 3⟩, ⟨"P2", "Available", none, none⟩]
    (by decide)

/-! ## Claim C7 -/

/-- C7: recording a payment whose user id matches no account leaves the
whole database unchanged (the inserted payment row is rolled back) and
reports failure through the success flag with the triggering error
message, instead of throwing. -/
theorem C7_payment_missing_account (db : DBState) (user_id : Nat) (amount : ℚ)
    (h : ∀ u ∈ db.users, u.id ≠ user_id) :
    (createPayment db user_id amount).1 = db
    ∧ (createPayment db user_id amount).2.success = false
    ∧ (createPayment db user_id amount).2.message = "User not found" := by
  have hfind : db.users.find? (fun u => u.id == user_id) = none :=
    List.find?_eq_none.mpr (fun u hu => by simpa using h u hu)
  rw [createPayment_not_found db user_id amount hfind]
  exact ⟨rfl, rfl, rfl⟩

/-- Closed witness for `C7_payment_missing_account`: paying user 9999 in an
empty database fails. -/
theorem C7_payment_missing_account_witness :
    (createPayment ⟨[], [], []⟩ 9999 5).1 = ⟨[], [], []⟩
    ∧ (createPayment ⟨[], [], []⟩ 9999 5).2.success = false :=
  ⟨(C7_payment_missing_account ⟨[], [], []⟩ 9999 5 (by simp)).1,
   (C7_payment_missing_account ⟨[], [], []⟩ 9999 5 (by simp)).2.1⟩

/-! ## Claim C10 -/

/-- C10: in the update paths, the plot-ownership block releases exactly the
plots whose owner equals the account's previous name, assigns the listed
plot numbers to the account's new (updated) name, and leaves plots owned
under the old name but absent from the new list Available and unowned. -/
theorem C10_release_old_assign_new (prevName newName : String) (now : Nat)
    (newPlotList : Option String) (plots : List Plot) :
    syncOwnership prevName newName now newPlotList plots
      = plots.map (fun p =>
          if p.number ∈ effTokens newPlotList then soldPlot newName now p
          else if p.owner = some prevName then availablePlot p else p) :=
  syncOwnership_eq_map prevName newName now newPlotList plots

/-! ## Claim C8 -/

lemma deleteUser_found (db : DBState) (userId : Nat) (u : UserRow)
    (h : db.users.find? (fun w => w.id == userId) = some u) :
    deleteUser db userId
      = ({ users := db.users.filter (fun w => !(w.id == userId)),
           payments := db.payments.filter (fun p => !(p.user_id == userId)),
           plots :=
             if jsTruthy u.plot_taken then
               (splitTrim (u.plot_taken.getD (""))).foldl
                 (fun store n => store.map
                   (fun p => if p.number = n then availablePlot p else p))
                 db.plots
             else db.plots }, true) := by
  unfold deleteUser
  rw [h]

/-- C8: deleting an existing account succeeds and, in one transaction,
resets every plot whose number is listed in the account's `plot_taken` to
Available with owner and reserved-at cleared, deletes every payment row of
the account, and deletes the account row, so that no payment referencing
the account remains. -/
theorem C8_delete_cascades (db : DBState) (userId : Nat) (u : UserRow)
    (h : db.users.find? (fun w => w.id == userId) = some u) :
    (deleteUser db userId).2 = true
    ∧ (deleteUser db userId).1.plots
        = db.plots.map (fun p =>
            if p.number ∈ truthyTokens u.plot_taken then availablePlot p else p)
    ∧ (∀ p ∈ (deleteUser db userId).1.plots,
          p.number ∈ truthyTokens u.plot_taken →
          p.status = "Available" ∧ p.owner = none ∧ p.reservedAt = none)
    ∧ (∀ pay ∈ (deleteUser db userId).1.payments, pay.user_id ≠ userId)
    ∧ (∀ w ∈ (deleteUser db userId).1.users, w.id ≠ userId) := by
  rw [deleteUser_found db userId u h]
  have hplots :
      (if jsTruthy u.plot_taken then
          (splitTrim (u.plot_taken.getD (""))).foldl
            (fun store n => store.map
              (fun p => if p.number = n then availablePlot p else p))
            db.plots
        else db.plots)
      = db.plots.map (fun p =>
          if p.number ∈ truthyTokens u.plot_taken then availablePlot p else p) := by
    unfold truthyTokens
    by_cases ht : jsTruthy u.plot_taken
    · rw [if_pos ht, if_pos ht, releaseByNumber_eq_map]
    · rw [if_neg ht, if_neg ht]
      have h2 : db.plots.map (fun p =>
          if p.number ∈ ([] : List String) then availablePlot p else p)
          = db.plots.map (fun p => p) :=
        List.map_congr_left (fun p _ => by rw [if_neg (by simp)])
      rw [h2, List.map_id']
  refine ⟨rfl, hplots, ?_, ?_, ?_⟩
  · intro p hp hmem
    rw [hplots] at hp
    obtain ⟨q, _, hq⟩ := List.mem_map.mp hp
    by_cases hqm : q.number ∈ truthyTokens u.plot_taken
    · rw [if_pos hqm] at hq
      subst hq
      exact ⟨rfl, rfl, rfl⟩
    · rw [if_neg hqm] at hq
      subst hq
      exact absurd hmem hqm
  · intro pay hp
    have := (List.mem_filter.mp hp).2
    simpa using this
  · intro w hw
    have := (List.mem_filter.mp hw).2
    simpa using this

/-- Closed witness for `C8_delete_cascades` on a one-user database. -/
theorem C8_delete_cascades_witness :
    (deleteUser ⟨[⟨1, "alice", some ("P1,P2"), 2, 5, 3, "Active"⟩], [⟨1, 3⟩],
        [⟨"P1", "Sold", some ("alice"), some 1⟩]⟩ 1).2 = true
    ∧ (∀ pay ∈ (deleteUser ⟨[⟨1, "alice", some ("P1,P2"), 2, 5, 3, "Active"⟩],
        [⟨1, 3⟩], [⟨"P1", "Sold", some ("alice"), some 1⟩]⟩ 1).1.payments,
        pay.user_id ≠ 1) :=
  ⟨(C8_delete_cascades ⟨[⟨1, "alice", some ("P1,P2"), 2, 5, 3, "Active"⟩], [⟨1, 3⟩],
      [⟨"P1", "Sold", some ("alice"), some 1⟩]⟩ 1
      ⟨1, "alice", some ("P1,P2"), 2, 5, 3, "Active"⟩ rfl).1,
   (C8_delete_cascades ⟨[⟨1, "alice", some ("P1,P2"), 2, 5, 3, "Active"⟩], [⟨1, 3⟩],
      [⟨"P1", "Sold", some ("alice"), some 1⟩]⟩ 1
      ⟨1, "alice", some ("P1,P2"), 2, 5, 3, "Active"⟩ rfl).2.2.2.1⟩

/-! ## Claim C9: reads persist the recomputed balance -/

/-- The (balance, optional status) pair the refresh block writes to the
user's row; the status column is written only when one of the two
transition rules fires. -/
def refreshVals (payments : List PaymentRow) (user : UserRow) : ℚ × Option String :=
  if currentBalanceOf payments user ≤ 0 ∧ user.status ≠ "Completed" then
    (0, some ("Completed"))
  else if currentBalanceOf payments user > 0 ∧ user.status = "Completed" then
    (currentBalanceOf payments user, some ("Active"))
  else (currentBalanceOf payments user, none)

/-- Applying `UPDATE usersTable SET ... WHERE id = uid` with a balance and
an optional status to one row. -/
def rowUpd (uid : Nat) (v : ℚ × Option String) (w : UserRow) : UserRow :=
  if w.id == uid then
    match v.2 with
    | some st => { w with total_balance := v.1, status := st }
    | none => { w with total_balance := v.1 }
  else w

lemma rowUpd_id (uid : Nat) (v : ℚ × Option String) (w : UserRow) :
    (rowUpd uid v w).id = w.id := by
  obtain ⟨b, st⟩ := v
  unfold rowUpd
  by_cases h : (w.id == uid) = true
  · rw [if_pos h]
    cases st <;> rfl
  · rw [if_neg h]

lemma reconciledRow_eq (ps : List PaymentRow) (w : UserRow) :
    reconciledRow ps w
      = { w with total_balance := currentBalanceOf ps w,
                 status :=
                   if currentBalanceOf ps w ≤ 0 then "Completed"
                   else if currentBalanceOf ps w > 0 ∧ w.status = "Completed"
                   then "Active"
                   else w.status } := rfl

lemma currentBalanceOf_nonneg (ps : List PaymentRow) (u : UserRow) :
    0 ≤ currentBalanceOf ps u :=
  le_max_left 0 _

lemma refreshUser_fst (db : DBState) (user : UserRow) :
    (refreshUser db user).1
      = { db with users :=
            db.users.map (rowUpd user.id (refreshVals db.payments user)) } := by
  unfold refreshUser refreshVals
  split_ifs with h1 h2
  · rfl
  · rfl
  · rfl

lemma refreshUser_snd (db : DBState) (user : UserRow) :
    (refreshUser db user).2 = reconciledRow db.payments user := by
  rw [reconciledRow_eq]
  unfold refreshUser
  by_cases h1 : currentBalanceOf db.payments user ≤ 0 ∧ user.status ≠ "Completed"
  · rw [if_pos h1, if_pos h1.1]
  · rw [if_neg h1]
    by_cases h2 : currentBalanceOf db.payments user > 0 ∧ user.status = "Completed"
    · rw [if_pos h2, if_neg (not_le.mpr h2.1), if_pos h2]
    · rw [if_neg h2]
      by_cases h3 : currentBalanceOf db.payments user ≤ 0
      · have hst : user.status = "Completed" := by
          by_contra hc
          exact h1 ⟨h3, hc⟩
        rw [if_pos h3]
        dsimp only
        rw [← hst]
      · rw [if_neg h3, if_neg h2]

lemma find?_id_self_of_nodup :
    ∀ (l : List UserRow), (l.map (fun w => w.id)).Nodup →
      ∀ w ∈ l, l.find? (fun v => v.id == w.id) = some w := by
  intro l
  induction l with
  | nil =>
      intro _ w hw
      exact absurd hw (List.not_mem_nil w)
  | cons h t ih =>
      intro hnd w hw
      have hnd' : (t.map (fun w => w.id)).Nodup := (List.nodup_cons.mp hnd).2
      have hnotin : h.id ∉ t.map (fun w => w.id) := (List.nodup_cons.mp hnd).1
      by_cases hh : (h.id == w.id) = true
      · have heq : h.id = w.id := by simpa using hh
        have hwh : w = h := by
          rcases List.mem_cons.mp hw with rfl | hwt
          · rfl
          · exact absurd (heq ▸ List.mem_map_of_mem (fun w => w.id) hwt) hnotin
        have hfind : (h :: t).find? (fun v => v.id == w.id) = some h :=
          List.find?_cons_of_pos t hh
        rw [hfind, hwh]
      · have hwt : w ∈ t := by
          rcases List.mem_cons.mp hw with rfl | hwt
          · exact absurd (by simp) hh
          · exact hwt
        have hfind : (h :: t).find? (fun v => v.id == w.id)
            = t.find? (fun v => v.id == w.id) :=
          List.find?_cons_of_neg t hh
        rw [hfind]
        exact ih hnd' w hwt

lemma fold_rowUpd (ps : List PaymentRow) :
    ∀ (todo : List UserRow), (todo.map (fun w => w.id)).Nodup →
      ∀ (cur : List UserRow),
      todo.foldl (fun us user => us.map (rowUpd user.id (refreshVals ps user))) cur
        = cur.map (fun w =>
            match todo.find? (fun v => v.id == w.id) with
            | some v => rowUpd v.id (refreshVals ps v) w
            | none => w) := by
  intro todo
  induction todo with
  | nil =>
      intro _ cur
      simp
  | cons u rest ih =>
      intro hnd cur
      have hnd' : (rest.map (fun w => w.id)).Nodup := (List.nodup_cons.mp hnd).2
      have hnotin : u.id ∉ rest.map (fun w => w.id) := (List.nodup_cons.mp hnd).1
      rw [List.foldl_cons, ih hnd', List.map_map]
      refine List.map_congr_left (fun w _ => ?_)
      simp only [Function.comp_apply]
      by_cases hw : (u.id == w.id) = true
      · have heq : u.id = w.id := by simpa using hw
        have hfind : (u :: rest).find? (fun v => v.id == w.id) = some u :=
          List.find?_cons_of_pos rest hw
        rw [hfind]
        have hfr : rest.find? (fun v => v.id == (rowUpd u.id (refreshVals ps u) w).id) = none := by
          refine List.find?_eq_none.mpr (fun v hv => ?_)
          rw [rowUpd_id]
          intro hc
          have hvw : v.id = w.id := by simpa using hc
          exact hnotin ((heq.trans hvw.symm) ▸ List.mem_map_of_mem (fun w => w.id) hv)
        rw [hfr]
      · have hne : u.id ≠ w.id := by simpa using hw
        have hw' : ¬ (w.id == u.id) = true := by
          simp only [beq_iff_eq]
          exact fun hc => hne hc.symm
        have hrw : rowUpd u.id (refreshVals ps u) w = w := by
          unfold rowUpd
          rw [if_neg hw']
        have hfind : (u :: rest).find? (fun v => v.id == w.id)
            = rest.find? (fun v => v.id == w.id) :=
          List.find?_cons_of_neg rest hw
        rw [hrw, hfind]

lemma rowUpd_self (ps : List PaymentRow) (w : UserRow) :
    rowUpd w.id (refreshVals ps w) w = reconciledRow ps w := by
  rw [reconciledRow_eq]
  unfold rowUpd refreshVals
  rw [if_pos (by simp : (w.id == w.id) = true)]
  by_cases h1 : currentBalanceOf ps w ≤ 0 ∧ w.status ≠ "Completed"
  · rw [if_pos h1, if_pos h1.1]
    have hz : currentBalanceOf ps w = 0 :=
      le_antisymm h1.1 (currentBalanceOf_nonneg ps w)
    rw [hz]
  · rw [if_neg h1]
    by_cases h2 : currentBalanceOf ps w > 0 ∧ w.status = "Completed"
    · rw [if_pos h2, if_neg (not_le.mpr h2.1), if_pos h2]
    · rw [if_neg h2]
      by_cases h3 : currentBalanceOf ps w ≤ 0
      · have hst : w.status = "Completed" := by
          by_contra hc
          exact h1 ⟨h3, hc⟩
        rw [if_pos h3]
        dsimp only
        rw [← hst]
      · rw [if_neg h3, if_neg h2]

lemma getAllUsers_go :
    ∀ (todo : List UserRow) (dbacc : DBState) (vs : List UserRow),
      todo.foldl
          (fun acc user =>
            let r := refreshUser acc.1 user
            (r.1, acc.2 ++ [r.2]))
          (dbacc, vs)
        = ({ dbacc with users := (todo.foldl
              (fun us user => us.map (rowUpd user.id (refreshVals dbacc.payments user)))
              dbacc.users) },
           vs ++ todo.map (fun user => reconciledRow dbacc.payments user)) := by
  intro todo
  induction todo with
  | nil =>
      intro dbacc vs
      simp
  | cons u rest ih =>
      intro dbacc vs
      rw [List.foldl_cons, List.foldl_cons]
      dsimp only
      rw [refreshUser_fst, refreshUser_snd, ih]
      dsimp only
      rw [List.map_cons]
      simp [List.append_assoc]

/-- C9: fetching an account is not read-only.  For `getUserById`, the
looked-up row is rewritten in the store with the balance and status the
reconciliation rule computes from the stored deposit, total due and
payment list (other rows and the payment table untouched), and the
returned row carries the same recomputed values.  For `getAllUsers`, every
row is rewritten with its reconciled balance/status and the reconciled
rows are returned. -/
theorem C9_reads_persist_reconciliation :
    (∀ (db : DBState) (uid : Nat) (u : UserRow),
        (db.users.map (fun w => w.id)).Nodup →
        db.users.find? (fun w => w.id == uid) = some u →
        ((getUserById db uid).1.users
            = db.users.map (fun w =>
                if w.id == uid then reconciledRow db.payments w else w)
         ∧ (getUserById db uid).1.payments = db.payments
         ∧ (getUserById db uid).2 = some (reconciledRow db.payments u)))
    ∧ (∀ db : DBState,
        (db.users.map (fun w => w.id)).Nodup →
        ((getAllUsers db).1.users = db.users.map (fun w => reconciledRow db.payments w)
         ∧ (getAllUsers db).1.payments = db.payments
         ∧ (getAllUsers db).2 = db.users.map (fun w => reconciledRow db.payments w))) := by
  constructor
  · intro db uid u hnd hfind
    have hu_mem : u ∈ db.users := List.mem_of_find?_eq_some hfind
    have hu_id : u.id = uid := by simpa using List.find?_some hfind
    have hopen : getUserById db uid = ((refreshUser db u).1, some (refreshUser db u).2) := by
      unfold getUserById
      rw [hfind]
    refine ⟨?_, ?_, ?_⟩
    · rw [hopen]
      show ((refreshUser db u).1).users = _
      rw [refreshUser_fst]
      show db.users.map (rowUpd u.id (refreshVals db.payments u)) = _
      refine List.map_congr_left (fun w hw => ?_)
      by_cases hww : (w.id == uid) = true
      · have hwid : w.id = uid := by simpa using hww
        have hwu : w = u :=
          List.inj_on_of_nodup_map hnd hw hu_mem (hwid.trans hu_id.symm)
        rw [if_pos hww, hwu]
        exact rowUpd_self db.payments u
      · have hne : ¬ (w.id == u.id) = true := by
          simp only [beq_iff_eq]
          intro hc
          exact (by simpa using hww : w.id ≠ uid) (hc.trans hu_id)
        have hrw : rowUpd u.id (refreshVals db.payments u) w = w := by
          unfold rowUpd
          rw [if_neg hne]
        rw [if_neg hww, hrw]
    · rw [hopen]
      show ((refreshUser db u).1).payments = _
      rw [refreshUser_fst]
    · rw [hopen]
      show some ((refreshUser db u).2) = _
      rw [refreshUser_snd]
  · intro db hnd
    have hgo := getAllUsers_go db.users db []
    have hfold := fold_rowUpd db.payments db.users hnd db.users
    refine ⟨?_, ?_, ?_⟩
    · unfold getAllUsers
      rw [hgo]
      dsimp only
      rw [hfold]
      refine List.map_congr_left (fun w hw => ?_)
      rw [find?_id_self_of_nodup db.users hnd w hw]
      exact rowUpd_self db.payments w
    · unfold getAllUsers
      rw [hgo]
    · unfold getAllUsers
      rw [hgo]
      dsimp only
      rw [List.nil_append]

/-- Closed witness for `C9_reads_persist_reconciliation`: reading user 1
persists and returns its reconciled row. -/
theorem C9_reads_persist_reconciliation_witness :
    (getUserById ⟨[⟨1, "a", none, 2, 5, 9, "Active"⟩], [], []⟩ 1).2
      = some (reconciledRow [] ⟨1, "a", none, 2, 5, 9, "Active"⟩) :=
  (C9_reads_persist_reconciliation.1 ⟨[⟨1, "a", none, 2, 5, 9, "Active"⟩], [], []⟩ 1
    ⟨1, "a", none, 2, 5, 9, "Active"⟩ (by simp) rfl).2.2

end Musabaha
